import Mathlib

/-!
Shallow embedding of the heuristic financial text analyzer in `tools.py`
(repository `wik`).  Text is modelled as `List Char`; Python's `str.lower`,
substring test (`in`), non-overlapping `str.count`, `str.strip`, `str.title`
are embedded below, together with direct matchers for the three regular
expressions the module uses (monetary values, highlights, the risk-factors
section, and the company-name pattern).  All definitions are executable.
-/

namespace Wik

/-- Convert a Lean string literal to the `List Char` representation used
throughout this development. -/
def strL (s : String) : List Char := s.data

/-- ASCII lowercasing of one character, as Python's `str.lower` acts on the
ASCII inputs this component receives. -/
def lowerChar (c : Char) : Char := c.toLower

/-- `text.lower()` on the character-list model. -/
def lower (s : List Char) : List Char := s.map lowerChar

/-- Python's `\s` class (ASCII part): space, tab, newline, carriage return,
vertical tab, form feed. -/
def isSpaceChar (c : Char) : Bool :=
  c = ' ' || c = '\t' || c = '\n' || c = '\r' || c = '\x0b' || c = '\x0c'

/-- Substring test: Python's `needle in hay` for strings. -/
def containsSub (needle : List Char) : List Char → Bool
  | [] => needle.isPrefixOf []
  | hay@(_ :: rest) => needle.isPrefixOf hay || containsSub needle rest

/-- Non-overlapping occurrence counting, the semantics of Python's
`str.count` for a non-empty needle: after a match the scan resumes past the
matched text.  The second argument counts characters still to skip before
the next match attempt (the structural-recursion form of "resume the scan
`needle.length` characters further on"). -/
def countAux (needle : List Char) : List Char → Nat → Nat
  | [], _ => 0
  | hay@(_ :: rest), 0 =>
      if needle.isPrefixOf hay then 1 + countAux needle rest (needle.length - 1)
      else countAux needle rest 0
  | _ :: rest, skip + 1 => countAux needle rest skip

/-- Python's `hay.count(needle)` (for the empty needle Python returns
`len(hay) + 1`; the analyzer never passes an empty needle). -/
def countSub (needle hay : List Char) : Nat :=
  match needle with
  | [] => hay.length + 1
  | _ :: _ => countAux needle hay 0

/-- Python's `str.title()` restricted to ASCII: the first alphabetic
character of each run is upper-cased, subsequent ones lower-cased. -/
def pyTitleAux : Bool → List Char → List Char
  | _, [] => []
  | prevAlpha, c :: rest =>
      (if c.isAlpha then (if prevAlpha then c.toLower else c.toUpper) else c)
        :: pyTitleAux c.isAlpha rest

/-- Python's `str.title()` on the character-list model. -/
def pyTitle (s : List Char) : List Char := pyTitleAux false s

/-- Python's `str.strip()`: drop whitespace from both ends. -/
def pyStrip (s : List Char) : List Char :=
  ((s.dropWhile isSpaceChar).reverse.dropWhile isSpaceChar).reverse

/-- The `[\d,]` character class of the monetary pattern. -/
def isDigitComma (c : Char) : Bool := c.isDigit || c = ','

/-- One attempt of the monetary-value regular expression
`<keyword>[:\s]*\$?\s*([\d,]+(?:\.\d+)?)\s*(?:million|billion|M|B)?`
(compiled with IGNORECASE) at the head of `s`.  Every quantifier in the
pattern is greedy, and everything after the digit group is optional, so the
greedy backtracking-free reading below yields exactly the match Python's
engine produces: shrinking `[:\s]*`, `\$?` or `\s*` can never rescue a
failed attempt because the shed characters are never digits, and once the
digit group has matched the remainder of the pattern always succeeds.
Returns `(matched length, text of capture group 1)`. -/
def matchMoney (kw s : List Char) : Option (Nat × List Char) :=
  if (lower kw).isPrefixOf (lower s) then
    let s1 := s.drop kw.length
    let sep := s1.takeWhile (fun c => c = ':' || isSpaceChar c)
    let s2 := s1.drop sep.length
    let dol := if s2.head? = some '$' then 1 else 0
    let s3 := s2.drop dol
    let sp2 := s3.takeWhile isSpaceChar
    let s4 := s3.drop sp2.length
    let digs := s4.takeWhile isDigitComma
    if digs.isEmpty then none
    else
      let s5 := s4.drop digs.length
      let frac :=
        match s5 with
        | '.' :: r => if (r.takeWhile Char.isDigit).isEmpty then [] else '.' :: r.takeWhile Char.isDigit
        | _ => []
      let s6 := s5.drop frac.length
      let sp3 := s6.takeWhile isSpaceChar
      let s7 := s6.drop sp3.length
      let scaleLen :=
        if (strL "million").isPrefixOf (lower s7) then 7
        else if (strL "billion").isPrefixOf (lower s7) then 7
        else if s7.head?.map lowerChar = some 'm' then 1
        else if s7.head?.map lowerChar = some 'b' then 1
        else 0
      some (kw.length + sep.length + dol + sp2.length + digs.length
              + frac.length + sp3.length + scaleLen, digs ++ frac)
  else none

/-- `re.finditer` over the monetary pattern for one keyword: the scan moves
left to right and resumes at each match's end (a successful match always
consumes at least the digit group, so its length `n` is positive).  The
`Nat` argument counts characters still to skip before the next attempt. -/
def scanMoneyGo (kw : List Char) : List Char → Nat → List (List Char × List Char)
  | [], _ => []
  | s@(_ :: rest), 0 =>
      match matchMoney kw s with
      | some (n, g1) => (s.take n, g1) :: scanMoneyGo kw rest (n - 1)
      | none => scanMoneyGo kw rest 0
  | _ :: rest, skip + 1 => scanMoneyGo kw rest skip

/-- All matches of the monetary pattern for one keyword, in text order. -/
def scanMoney (kw text : List Char) : List (List Char × List Char) :=
  scanMoneyGo kw text 0

/-- The value-formatting branch inside `find_monetary_values`'s match loop:
the Python tests are `'million' in context.lower() or 'M' in context` and
`'billion' in context.lower() or 'B' in context`, where `context` is the
whole matched text (`match.group(0)`, keyword included) and the one-letter
probes are case-sensitive. -/
def formatValue (context value : List Char) : List Char :=
  if containsSub (strL "million") (lower context) || containsSub (strL "M") context then
    '$' :: value ++ strL "M"
  else if containsSub (strL "billion") (lower context) || containsSub (strL "B") context then
    '$' :: value ++ strL "B"
  else
    '$' :: value

/-- `find_monetary_values(text, keywords)`: for each keyword, in list order,
format every match of the monetary pattern (in text order) and append it. -/
def find_monetary_values (text : List Char) (keywords : List (List Char)) :
    List (List Char) :=
  keywords.foldl (fun values kw =>
    values ++ (scanMoney kw text).map (fun p => formatValue p.1 p.2)) []

/-- The `financial_terms` table of `extract_financial_metrics`. -/
def financial_terms : List (List Char × List (List Char)) :=
  [(strL "revenue", [strL "revenue", strL "net sales", strL "total revenue"]),
   (strL "net_income", [strL "net income", strL "net profit", strL "net earnings"]),
   (strL "total_assets", [strL "total assets"]),
   (strL "cash", [strL "cash", strL "cash and equivalents"])]

/-- `extract_financial_metrics(text)`: a metric key is present only when the
keyword scan found at least one value, and it is bound to `values[0]`.  The
Python dict preserves insertion order, modelled as an association list. -/
def extract_financial_metrics (text : List Char) : List (List Char × List Char) :=
  financial_terms.foldl (fun metrics p =>
    match find_monetary_values text p.2 with
    | [] => metrics
    | v :: _ => metrics ++ [(p.1, v)]) []

/-- The three highlight patterns of `extract_highlights`, each an alternation
of literal alternatives followed by `.{0,100}`. -/
def positive_patterns : List (List (List Char)) :=
  [[strL "growth", strL "increased", strL "improved", strL "strong"],
   [strL "expansion", strL "acquisition", strL "new product"],
   [strL "dividend", strL "share repurchase"]]

/-- One attempt of `(?:alt1|...|altK).{0,100}` (IGNORECASE, `.` not matching
newline) at the head of `s`: the first alternative in pattern order that
matches wins, then up to 100 non-newline characters are consumed greedily.
Returns the matched length. -/
def matchHighlight (alts : List (List Char)) (s : List Char) : Option Nat :=
  match alts.find? (fun a => (lower a).isPrefixOf (lower s)) with
  | some a =>
      some (a.length + (((s.drop a.length).takeWhile (fun c => c != '\n')).take 100).length)
  | none => none

/-- `re.finditer` over one highlight pattern: left-to-right, non-overlapping
(every alternative is non-empty, so a match's length `n` is positive).  The
`Nat` argument counts characters still to skip before the next attempt. -/
def scanHighlightsGo (alts : List (List Char)) : List Char → Nat → List (List Char)
  | [], _ => []
  | s@(_ :: rest), 0 =>
      match matchHighlight alts s with
      | some n => s.take n :: scanHighlightsGo alts rest (n - 1)
      | none => scanHighlightsGo alts rest 0
  | _ :: rest, skip + 1 => scanHighlightsGo alts rest skip

/-- All matches of one highlight pattern, in text order. -/
def scanHighlights (alts : List (List Char)) (text : List Char) : List (List Char) :=
  scanHighlightsGo alts text 0

/-- `extract_highlights(text)`: concatenate the matches of the three patterns
in pattern order, strip each, keep those with `20 < len < 200`, return the
first 5. -/
def extract_highlights (text : List Char) : List (List Char) :=
  (positive_patterns.foldl (fun highlights alts =>
      highlights ++ ((scanHighlights alts text).map pyStrip).filter
        (fun h => 20 < h.length && h.length < 200)) []).take 5

/-- The positive-indicator table of `generate_recommendation`. -/
def positive_indicators : List (List Char) :=
  [strL "growth", strL "increased", strL "improved", strL "strong", strL "expansion"]

/-- The negative-indicator table of `generate_recommendation`. -/
def negative_indicators : List (List Char) :=
  [strL "declined", strL "decreased", strL "loss", strL "challenging", strL "restructuring"]

/-- `positive_count` inside `generate_recommendation`: total of the
per-indicator `str.count` values over the lowercased text. -/
def positiveCount (text : List Char) : Nat :=
  (positive_indicators.map (fun t => countSub t (lower text))).sum

/-- `negative_count` inside `generate_recommendation`. -/
def negativeCount (text : List Char) : Nat :=
  (negative_indicators.map (fun t => countSub t (lower text))).sum

def POSITIVE_REC : List Char :=
  strL "POSITIVE - Document shows favorable indicators for investment consideration"

def CAUTIOUS_REC : List Char :=
  strL "CAUTIOUS - Document shows some concerning factors requiring careful analysis"

def NEUTRAL_REC : List Char :=
  strL "NEUTRAL - Mixed indicators suggest further analysis needed"

/-- `generate_recommendation(text)`.  Python compares the integer counts
against `count * 1.2` computed in double precision; the literal is modelled
by the exact rational `6 / 5` (so `a > b * 1.2` becomes `5 * a > 6 * b`),
with which the double-precision comparison agrees for every count below
`2 ^ 50` (the rounding error of `n * 1.2` stays far smaller than the
distance of `1.2 * n` to the nearest other integer). -/
def generate_recommendation (text : List Char) : List Char :=
  if 5 * positiveCount text > 6 * negativeCount text then POSITIVE_REC
  else if 5 * negativeCount text > 6 * positiveCount text then CAUTIOUS_REC
  else NEUTRAL_REC

/-- The record built by `extract_document_info`. -/
structure DocumentInfo where
  document_type : List Char
  company_name : List Char
  reporting_period : List Char
deriving DecidableEq

/-- The `[A-Za-z\s&]` character class of the company-name pattern. -/
def isCorpNameChar (c : Char) : Bool := c.isAlpha || isSpaceChar c || c = '&'

/-- Alternatives of the corporate-suffix group, in pattern order
(case-sensitive: the pattern is compiled without flags). -/
def corpSuffixes : List (List Char) :=
  [strL "Inc", strL "Corp", strL "Corporation", strL "Ltd", strL "Limited", strL "LLC"]

/-- Backtracking of the greedy `[A-Za-z\s&]+` in
`[A-Z][A-Za-z\s&]+(?:Inc|Corp|Corporation|Ltd|Limited|LLC)\.?`: the `+`
first consumes `j` characters and shrinks one character at a time until a
corporate suffix (alternatives tried in pattern order) matches right after
it; the optional dot is then taken greedily and the pattern ends, so the
first such `j` wins.  `s` is the text at the match start (its head is the
`[A-Z]` character); the result is the total matched length. -/
def companyTry (s : List Char) : Nat → Option Nat
  | 0 => none
  | j + 1 =>
      match corpSuffixes.find? (fun suf => suf.isPrefixOf (s.drop (j + 2))) with
      | some suf =>
          some (j + 2 + suf.length +
            (if (s.drop (j + 2 + suf.length)).head? = some '.' then 1 else 0))
      | none => companyTry s j

/-- One attempt of the company-name pattern at the head of the text. -/
def matchCompanyAt : List Char → Option Nat
  | [] => none
  | c :: rest =>
      if c.isUpper then companyTry (c :: rest) (rest.takeWhile isCorpNameChar).length
      else none

/-- `re.search` over the company-name pattern: leftmost match wins. -/
def searchCompany : List Char → Option (List Char)
  | [] => none
  | s@(_ :: rest) =>
      match matchCompanyAt s with
      | some n => some (s.take n)
      | none => searchCompany rest

/-- `extract_document_info(text)`: document type by a case-insensitive
substring if/elif chain, company name from the first 2000 characters. -/
def extract_document_info (text : List Char) : DocumentInfo :=
  let tl := lower text
  { document_type :=
      if containsSub (strL "annual report") tl || containsSub (strL "10-k") tl then
        strL "Annual Report"
      else if containsSub (strL "quarterly") tl || containsSub (strL "10-q") tl then
        strL "Quarterly Report"
      else if containsSub (strL "earnings") tl then
        strL "Earnings Report"
      else
        strL "Financial Document"
    company_name :=
      match searchCompany (text.take 2000) with
      | some m => pyStrip m
      | none => strL "Not identified"
    reporting_period := strL "Not specified" }

/-- The analysis record built by `analyze_investment` on the success path. -/
structure Analysis where
  document_summary : DocumentInfo
  financial_metrics : List (List Char × List Char)
  key_highlights : List (List Char)
  investment_recommendation : List Char
deriving DecidableEq

/-- Result of `analyze_investment`: either the single-key error record or
the analysis record. -/
inductive AnalyzeResult
  | error (msg : List Char)
  | ok (analysis : Analysis)
deriving DecidableEq

def ANALYSIS_ERR : List Char := strL "No valid financial data provided for analysis"

/-- `analyze_investment(financial_document_data)`: the guard is
`not data or data.startswith("Error:")` (a Python string is falsy exactly
when it is empty). -/
def analyze_investment (financial_document_data : List Char) : AnalyzeResult :=
  if financial_document_data.isEmpty
      || (strL "Error:").isPrefixOf financial_document_data then
    .error ANALYSIS_ERR
  else
    .ok { document_summary := extract_document_info financial_document_data
          financial_metrics := extract_financial_metrics financial_document_data
          key_highlights := extract_highlights financial_document_data
          investment_recommendation := generate_recommendation financial_document_data }

/-- The `risk_keywords` table of `identify_risks`. -/
def risk_keywords : List (List Char) :=
  [strL "debt", strL "liquidity", strL "competition", strL "regulatory",
   strL "market volatility", strL "credit risk", strL "operational risk",
   strL "litigation", strL "compliance"]

/-- Does one of the terminators of the risk-factors pattern — `item` or
`section` (case-insensitive) or a blank line — start at the head of `s`? -/
def riskTermAt (s : List Char) : Bool :=
  (strL "item").isPrefixOf (lower s) || (strL "section").isPrefixOf (lower s)
    || (strL "\n\n").isPrefixOf s

/-- Does a terminator start at the head of some suffix of `s`? -/
def riskTermAfter : List Char → Bool
  | [] => false
  | s@(_ :: rest) => riskTermAt s || riskTermAfter rest

/-- Whether `re.search(r'risk factors?:?(.*?)(?:item|section|\n\n)', text,
IGNORECASE | DOTALL)` succeeds.  The optional `s?` and `:?` and the lazy
`(.*?)` — which under DOTALL matches arbitrary characters — can absorb
anything between the literal and the terminator, so the pattern matches
exactly when some occurrence of `risk factor` (case-insensitive, 11
characters) is followed, at any distance, by a terminator. -/
def riskSectionFound : List Char → Bool
  | [] => false
  | s@(_ :: rest) =>
      ((strL "risk factor").isPrefixOf (lower s) && riskTermAfter (s.drop 11))
        || riskSectionFound rest

/-- `identify_risks(text)`: one labeled entry per present keyword, in table
order, then the section marker, truncated to 10. -/
def identify_risks (text : List Char) : List (List Char) :=
  let tl := lower text
  let risks := risk_keywords.foldl (fun risks kw =>
    if containsSub kw tl then risks ++ [pyTitle kw ++ strL " concerns mentioned"]
    else risks) []
  let risks :=
    if riskSectionFound text then
      risks ++ [strL "Dedicated risk factors section identified"]
    else risks
  risks.take 10

/-- The positive half of the `stability_indicators` table. -/
def stability_positive : List (List Char) :=
  [strL "strong cash", strL "profitable", strL "stable revenue", strL "low debt"]

/-- The negative half of the `stability_indicators` table. -/
def stability_negative : List (List Char) :=
  [strL "cash shortage", strL "loss", strL "high debt", strL "declining revenue"]

def STABLE_STR : List Char := strL "STABLE - Positive financial stability indicators"

def CONCERNING_STR : List Char := strL "CONCERNING - Several financial stability concerns"

def MIXED_STR : List Char := strL "MIXED - Balanced financial stability indicators"

/-- `assess_financial_stability(text)`. -/
def assess_financial_stability (text : List Char) : List Char :=
  let tl := lower text
  let positive_score := (stability_positive.map (fun t => countSub t tl)).sum
  let negative_score := (stability_negative.map (fun t => countSub t tl)).sum
  if positive_score > negative_score then STABLE_STR
  else if negative_score > positive_score then CONCERNING_STR
  else MIXED_STR

/-- The `market_risk_terms` table (a Python dict, iterated in insertion
order). -/
def market_risk_terms : List (List Char × List Char) :=
  [(strL "competition", strL "Competitive pressure identified"),
   (strL "market volatility", strL "Market volatility concerns"),
   (strL "economic uncertainty", strL "Economic uncertainty factors"),
   (strL "regulatory changes", strL "Regulatory change risks")]

/-- `assess_market_risks(text)`. -/
def assess_market_risks (text : List Char) : List (List Char) :=
  let tl := lower text
  market_risk_terms.foldl (fun risks p =>
    if containsSub p.1 tl then risks ++ [p.2] else risks) []

/-- The four fixed base recommendations of `generate_risk_recommendations`. -/
def base_recommendations : List (List Char) :=
  [strL "Monitor financial metrics regularly",
   strL "Diversify investment portfolio",
   strL "Stay informed about industry trends",
   strL "Review risk tolerance periodically"]

/-- `generate_risk_recommendations(text)`. -/
def generate_risk_recommendations (text : List Char) : List (List Char) :=
  let tl := lower text
  let recommendations := base_recommendations
  let recommendations :=
    if containsSub (strL "debt") tl then
      recommendations ++ [strL "Pay attention to debt levels and coverage ratios"]
    else recommendations
  let recommendations :=
    if containsSub (strL "competition") tl then
      recommendations ++ [strL "Monitor competitive landscape changes"]
    else recommendations
  recommendations.take 6

/-- `calculate_overall_risk(assessment)`, as a function of the three fields
it reads.  The stability tests are the case-sensitive Python substring
checks `'CONCERNING' in financial_stability` and `'STABLE' in
financial_stability`; the score is a Python integer, modelled as `Int`
(it can be `-1`). -/
def calculate_overall_risk (identified_risks : List (List Char))
    (financial_stability : List Char) (market_risks : List (List Char)) : List Char :=
  let total_risk_score : Int := identified_risks.length + market_risks.length
  let total_risk_score : Int :=
    if containsSub (strL "CONCERNING") financial_stability then total_risk_score + 3
    else if containsSub (strL "STABLE") financial_stability then total_risk_score - 1
    else total_risk_score
  if total_risk_score ≤ 3 then strL "LOW"
  else if total_risk_score ≤ 7 then strL "MEDIUM"
  else strL "HIGH"

/-- The risk-assessment record built by `assess_risks` on the success path. -/
structure RiskAssessment where
  overall_risk_level : List Char
  identified_risks : List (List Char)
  financial_stability : List Char
  market_risks : List (List Char)
  recommendations : List (List Char)
deriving DecidableEq

/-- Result of `assess_risks`: either the single-key error record or the
risk-assessment record. -/
inductive RiskResult
  | error (msg : List Char)
  | ok (assessment : RiskAssessment)
deriving DecidableEq

def RISK_ERR : List Char := strL "No valid financial data provided for risk assessment"

/-- `assess_risks(financial_document_data)`: same guard as
`analyze_investment`; `overall_risk_level` is recomputed from the other
fields by `calculate_overall_risk`. -/
def assess_risks (financial_document_data : List Char) : RiskResult :=
  if financial_document_data.isEmpty
      || (strL "Error:").isPrefixOf financial_document_data then
    .error RISK_ERR
  else
    let ir := identify_risks financial_document_data
    let fs := assess_financial_stability financial_document_data
    let mr := assess_market_risks financial_document_data
    .ok { overall_risk_level := calculate_overall_risk ir fs mr
          identified_risks := ir
          financial_stability := fs
          market_risks := mr
          recommendations := generate_risk_recommendations financial_document_data }

/-! ## Helper lemmas -/

/-- Unrolling the append-accumulating fold used by `find_monetary_values`:
it computes `flatMap`. -/
theorem foldl_append_eq_flatMap {α β : Type} (f : α → List β) :
    ∀ (l : List α) (init : List β),
      l.foldl (fun acc x => acc ++ f x) init = init ++ l.flatMap f
  | [], init => by simp
  | x :: xs, init => by
    simp only [List.foldl_cons, List.flatMap_cons]
    rw [foldl_append_eq_flatMap f xs (init ++ f x)]
    simp [List.append_assoc]

/-- Unrolling the conditional-append fold used by `identify_risks` and
`assess_market_risks`: it computes `filter` followed by `map`. -/
theorem foldl_guard_append_eq_filter_map {α β : Type} (p : α → Bool) (f : α → β) :
    ∀ (l : List α) (init : List β),
      l.foldl (fun acc x => if p x then acc ++ [f x] else acc) init
        = init ++ (l.filter p).map f
  | [], init => by simp
  | x :: xs, init => by
    by_cases hp : p x = true
    · rw [List.foldl_cons, List.filter_cons, if_pos hp, if_pos hp,
        foldl_guard_append_eq_filter_map p f xs (init ++ [f x])]
      simp [List.append_assoc]
    · rw [List.foldl_cons, List.filter_cons, if_neg hp, if_neg hp,
        foldl_guard_append_eq_filter_map p f xs init]

/-- A string whose head is a whitespace character does not carry the
`Error:` marker. -/
theorem errorMarker_not_prefix_of_whitespace (s : List Char) (hne : s ≠ [])
    (hws : ∀ c ∈ s, isSpaceChar c = true) :
    (strL "Error:").isPrefixOf s = false := by
  cases s with
  | nil => exact absurd rfl hne
  | cons c rest =>
    have hc := hws c (List.mem_cons_self _ _)
    by_contra hcon
    have htrue : (strL "Error:").isPrefixOf (c :: rest) = true := by
      revert hcon
      cases (strL "Error:").isPrefixOf (c :: rest) <;> simp
    have hE : c = 'E' := by
      rw [List.isPrefixOf_iff_prefix] at htrue
      rw [show strL "Error:" = 'E' :: strL "rror:" from rfl,
        List.cons_prefix_cons] at htrue
      exact htrue.1.symm
    subst hE
    exact absurd hc (by decide)

/-! ## Claims -/

/-- C1: for every input string that is empty or begins with the prefix
`Error:`, both entry points `analyze_investment` and `assess_risks` return
exactly the single-key error record and perform none of the pattern-based
analysis. -/
theorem error_inputs_short_circuit (s : List Char)
    (h : s = [] ∨ (strL "Error:").isPrefixOf s = true) :
    analyze_investment s = AnalyzeResult.error ANALYSIS_ERR ∧
    assess_risks s = RiskResult.error RISK_ERR := by
  have hb : (s.isEmpty || (strL "Error:").isPrefixOf s) = true := by
    rcases h with h | h
    · subst h; rfl
    · simp [h]
  constructor
  · simp only [analyze_investment, hb, if_true]
  · simp only [assess_risks, hb, if_true]

/-- Witness for `error_inputs_short_circuit` at the concrete error-marker
input `"Error: file not found"`. -/
theorem error_inputs_short_circuit_witness :
    analyze_investment (strL "Error: file not found") = AnalyzeResult.error ANALYSIS_ERR ∧
    assess_risks (strL "Error: file not found") = RiskResult.error RISK_ERR :=
  error_inputs_short_circuit (strL "Error: file not found") (Or.inr (by decide))

/-- C2 counterexample: a single-space input is not treated like the empty
string — `analyze_investment` and `assess_risks` do not short-circuit on it
but run the full analysis, so their results differ from the error records
returned for `""`. -/
theorem whitespace_not_like_empty :
    analyze_investment (strL " ") ≠ analyze_investment (strL "") ∧
    assess_risks (strL " ") ≠ assess_risks (strL "") := by decide

/-- C2 amended: a non-empty whitespace-only input is treated like ordinary
text — both entry points skip the error guard and return a full (non-error)
record; only the empty string and `Error:`-prefixed strings short-circuit. -/
theorem whitespace_input_analyzed (s : List Char) (hne : s ≠ [])
    (hws : ∀ c ∈ s, isSpaceChar c = true) :
    (∃ a, analyze_investment s = AnalyzeResult.ok a) ∧
    (∃ r, assess_risks s = RiskResult.ok r) := by
  have hempty : s.isEmpty = false := by
    cases s with
    | nil => exact absurd rfl hne
    | cons c rest => rfl
  have hpre := errorMarker_not_prefix_of_whitespace s hne hws
  constructor
  · refine ⟨{ document_summary := extract_document_info s
              financial_metrics := extract_financial_metrics s
              key_highlights := extract_highlights s
              investment_recommendation := generate_recommendation s }, ?_⟩
    simp only [analyze_investment, hempty, hpre, Bool.or_self]
    rfl
  · refine ⟨{ overall_risk_level := calculate_overall_risk (identify_risks s)
                (assess_financial_stability s) (assess_market_risks s)
              identified_risks := identify_risks s
              financial_stability := assess_financial_stability s
              market_risks := assess_market_risks s
              recommendations := generate_risk_recommendations s }, ?_⟩
    simp only [assess_risks, hempty, hpre, Bool.or_self]
    rfl

/-- Witness for `whitespace_input_analyzed` at the concrete input `" "`. -/
theorem whitespace_input_analyzed_witness :
    (∃ a, analyze_investment (strL " ") = AnalyzeResult.ok a) ∧
    (∃ r, assess_risks (strL " ") = RiskResult.ok r) :=
  whitespace_input_analyzed (strL " ") (by decide) (by decide)

/-- C8: for every input text, `extract_highlights` returns at most 5
entries, `identify_risks` at most 10, and `generate_risk_recommendations`
at most 6. -/
theorem output_length_caps (text : List Char) :
    (extract_highlights text).length ≤ 5 ∧
    (identify_risks text).length ≤ 10 ∧
    (generate_risk_recommendations text).length ≤ 6 :=
  ⟨List.length_take_le _ _, List.length_take_le _ _, List.length_take_le _ _⟩

/-- C5: `calculate_overall_risk` is a pure function of the number of
identified risks, the number of market risks and the stability
classification: the score is the sum of the two counts, plus 3 for
CONCERNING, minus 1 for STABLE, unchanged for MIXED (so it can be negative);
the level is LOW for score ≤ 3, MEDIUM for 3 < score ≤ 7, HIGH for
score > 7 — in particular score 3 gives LOW, 4 gives MEDIUM, 7 gives
MEDIUM, 8 gives HIGH, and the empty STABLE case scores -1 and gives LOW. -/
theorem overall_risk_of_counts (ir mr : List (List Char)) (fs : List Char)
    (hfs : fs = STABLE_STR ∨ fs = CONCERNING_STR ∨ fs = MIXED_STR) :
    calculate_overall_risk ir fs mr =
      (if (ir.length : Int) + mr.length + (if fs = CONCERNING_STR then 3 else 0)
            - (if fs = STABLE_STR then 1 else 0) ≤ 3 then strL "LOW"
       else if (ir.length : Int) + mr.length + (if fs = CONCERNING_STR then 3 else 0)
            - (if fs = STABLE_STR then 1 else 0) ≤ 7 then strL "MEDIUM"
       else strL "HIGH") ∧
    calculate_overall_risk [[], [], []] MIXED_STR [] = strL "LOW" ∧
    calculate_overall_risk [[], [], [], []] MIXED_STR [] = strL "MEDIUM" ∧
    calculate_overall_risk [[], [], [], []] MIXED_STR [[], [], []] = strL "MEDIUM" ∧
    calculate_overall_risk [[], [], [], []] MIXED_STR [[], [], [], []] = strL "HIGH" ∧
    calculate_overall_risk [] STABLE_STR [] = strL "LOW" := by
  refine ⟨?_, by decide, by decide, by decide, by decide, by decide⟩
  rcases hfs with h | h | h <;> subst h
  · simp only [calculate_overall_risk,
      show containsSub (strL "CONCERNING") STABLE_STR = false from by decide,
      show containsSub (strL "STABLE") STABLE_STR = true from by decide,
      show (STABLE_STR = CONCERNING_STR) = False from by simp [show STABLE_STR ≠ CONCERNING_STR from by decide],
      Bool.false_eq_true, if_false, if_true, eq_self_iff_true, add_zero]
  · simp only [calculate_overall_risk,
      show containsSub (strL "CONCERNING") CONCERNING_STR = true from by decide,
      show (CONCERNING_STR = STABLE_STR) = False from by simp [show CONCERNING_STR ≠ STABLE_STR from by decide],
      if_false, if_true, eq_self_iff_true, sub_zero]
  · simp only [calculate_overall_risk,
      show containsSub (strL "CONCERNING") MIXED_STR = false from by decide,
      show containsSub (strL "STABLE") MIXED_STR = false from by decide,
      show (MIXED_STR = CONCERNING_STR) = False from by simp [show MIXED_STR ≠ CONCERNING_STR from by decide],
      show (MIXED_STR = STABLE_STR) = False from by simp [show MIXED_STR ≠ STABLE_STR from by decide],
      Bool.false_eq_true, if_false, add_zero, sub_zero]

/-- Witness for `overall_risk_of_counts`: the CONCERNING classification with
no identified and no market risks scores 3 and is classified LOW. -/
theorem overall_risk_of_counts_witness :
    calculate_overall_risk [] CONCERNING_STR [] = strL "LOW" :=
  ((overall_risk_of_counts [] [] CONCERNING_STR (Or.inr (Or.inl rfl))).1).trans (by decide)

/-- C7: `identify_risks` emits one labeled string per present risk keyword,
in fixed table order (not text order), then the dedicated-section marker
when the risk-factors pattern matches, truncated to 10; for text containing
exactly `debt` and `competition` and no section heading the result is
exactly the two corresponding labels. -/
theorem identify_risks_table_order (text : List Char) :
    identify_risks text =
      (((risk_keywords.filter (fun kw => containsSub kw (lower text))).map
          (fun kw => pyTitle kw ++ strL " concerns mentioned"))
        ++ (if riskSectionFound text then
              [strL "Dedicated risk factors section identified"] else [])).take 10 ∧
    identify_risks (strL "debt and competition") =
      [strL "Debt concerns mentioned", strL "Competition concerns mentioned"] := by
  refine ⟨?_, by decide⟩
  simp only [identify_risks]
  rw [(foldl_guard_append_eq_filter_map (fun kw => containsSub kw (lower text))
      (fun kw => pyTitle kw ++ strL " concerns mentioned") risk_keywords []).trans
      (List.nil_append _)]
  by_cases hs : riskSectionFound text = true
  · rw [if_pos hs, if_pos hs]
  · rw [if_neg hs, if_neg hs, List.append_nil]

/-- C10: `assess_market_risks` returns the descriptions of exactly those
table entries whose trigger term occurs in the lowercased text, in fixed
table order; the list is duplicate-free and has at most 4 entries. -/
theorem market_risks_table (text : List Char) :
    assess_market_risks text =
      (market_risk_terms.filter (fun p => containsSub p.1 (lower text))).map Prod.snd ∧
    (assess_market_risks text).length ≤ 4 ∧
    (assess_market_risks text).Nodup ∧
    ∀ d, d ∈ assess_market_risks text ↔
      ∃ p ∈ market_risk_terms, containsSub p.1 (lower text) = true ∧ p.2 = d := by
  have heq : assess_market_risks text =
      (market_risk_terms.filter (fun p => containsSub p.1 (lower text))).map Prod.snd := by
    simp only [assess_market_risks]
    exact (foldl_guard_append_eq_filter_map _ _ market_risk_terms []).trans
      (List.nil_append _)
  refine ⟨heq, ?_, ?_, ?_⟩
  · rw [heq, List.length_map]
    exact List.length_filter_le _ market_risk_terms
  · rw [heq]
    exact List.Nodup.sublist ((List.filter_sublist market_risk_terms).map Prod.snd)
      (by decide)
  · intro d
    rw [heq]
    simp only [List.mem_map, List.mem_filter]
    constructor
    · rintro ⟨p, ⟨hmem, hcond⟩, hsnd⟩
      exact ⟨p, hmem, hcond, hsnd⟩
    · rintro ⟨p, hmem, hcond, hsnd⟩
      exact ⟨p, ⟨hmem, hcond⟩, hsnd⟩

/-- Witness for `market_risks_table`: the text `"competition"` triggers
exactly the competitive-pressure description. -/
theorem market_risks_table_witness :
    strL "Competitive pressure identified" ∈ assess_market_risks (strL "competition") :=
  ((market_risks_table (strL "competition")).2.2.2
      (strL "Competitive pressure identified")).mpr
    ⟨(strL "competition", strL "Competitive pressure identified"),
      by decide, by decide, rfl⟩

/-- C3 counterexample: in `"NET INCOME 5"` no scale suffix follows the
number, yet the emitted value is `$5M` — the capital `M` of the matched
keyword text satisfies the case-sensitive `'M' in context` probe. -/
theorem money_scale_counterexample :
    find_monetary_values (strL "NET INCOME 5")
      [strL "net income", strL "net profit", strL "net earnings"] = [strL "$5M"] := by
  decide

/-- C3 amended: the suffix letter of an emitted value is decided by
substring probes on the whole matched context rather than by the matched
scale suffix: the value is `$<number>M` exactly when `million` occurs in the
lowercased context or a capital `M` occurs anywhere in the context (keyword
text included); otherwise it is `$<number>B` exactly when `billion` occurs
in the lowercased context or a capital `B` occurs in the context; otherwise
it is `$<number>`; and every value emitted by `find_monetary_values` is the
so-formatted capture of some match of some keyword. -/
theorem money_format_by_context (context value text : List Char)
    (kws : List (List Char)) :
    (formatValue context value = '$' :: value ++ strL "M" ↔
       (containsSub (strL "million") (lower context)
         || containsSub (strL "M") context) = true) ∧
    (formatValue context value = '$' :: value ++ strL "B" ↔
       (containsSub (strL "million") (lower context)
         || containsSub (strL "M") context) = false ∧
       (containsSub (strL "billion") (lower context)
         || containsSub (strL "B") context) = true) ∧
    (formatValue context value = '$' :: value ↔
       (containsSub (strL "million") (lower context)
         || containsSub (strL "M") context) = false ∧
       (containsSub (strL "billion") (lower context)
         || containsSub (strL "B") context) = false) ∧
    ∀ v ∈ find_monetary_values text kws,
      ∃ kw ∈ kws, ∃ p ∈ scanMoney kw text, v = formatValue p.1 p.2 := by
  have hMB : ('$' :: value ++ strL "M") ≠ ('$' :: value ++ strL "B") := by
    intro h
    have h2 := (List.cons.inj h).2
    have h3 := List.append_cancel_left h2
    exact absurd h3 (by decide)
  have hM1 : ('$' :: value ++ strL "M") ≠ ('$' :: value) := by
    intro h
    have hl := congrArg List.length h
    simp [List.length_append] at hl
    exact absurd hl (by decide)
  have hB1 : ('$' :: value ++ strL "B") ≠ ('$' :: value) := by
    intro h
    have hl := congrArg List.length h
    simp [List.length_append] at hl
    exact absurd hl (by decide)
  have hmem : ∀ v ∈ find_monetary_values text kws,
      ∃ kw ∈ kws, ∃ p ∈ scanMoney kw text, v = formatValue p.1 p.2 := by
    intro v hv
    simp only [find_monetary_values] at hv
    rw [foldl_append_eq_flatMap
      (fun kw => (scanMoney kw text).map (fun p => formatValue p.1 p.2)) kws [],
      List.nil_append] at hv
    rcases List.mem_flatMap.mp hv with ⟨kw, hkw, hvm⟩
    rcases List.mem_map.mp hvm with ⟨p, hp, hfv⟩
    exact ⟨kw, hkw, p, hp, hfv.symm⟩
  by_cases hm : (containsSub (strL "million") (lower context)
      || containsSub (strL "M") context) = true
  · have hf : formatValue context value = '$' :: value ++ strL "M" := by
      simp only [formatValue, hm, if_true]
    rw [hf]
    exact ⟨iff_of_true rfl hm,
      iff_of_false hMB (fun h => absurd hm (by simp [h.1])),
      iff_of_false hM1 (fun h => absurd hm (by simp [h.1])), hmem⟩
  · have hmf : (containsSub (strL "million") (lower context)
        || containsSub (strL "M") context) = false := by
      revert hm
      cases containsSub (strL "million") (lower context)
        || containsSub (strL "M") context <;> simp
    by_cases hb : (containsSub (strL "billion") (lower context)
        || containsSub (strL "B") context) = true
    · have hf : formatValue context value = '$' :: value ++ strL "B" := by
        simp only [formatValue, hmf, hb, Bool.false_eq_true, if_false, if_true]
      rw [hf]
      exact ⟨iff_of_false (fun h => hMB h.symm) (fun hx => hm hx),
        iff_of_true rfl ⟨hmf, hb⟩,
        iff_of_false hB1 (fun h => absurd hb (by simp [h.2])), hmem⟩
    · have hbf : (containsSub (strL "billion") (lower context)
          || containsSub (strL "B") context) = false := by
        revert hb
        cases containsSub (strL "billion") (lower context)
          || containsSub (strL "B") context <;> simp
      have hf : formatValue context value = '$' :: value := by
        simp only [formatValue, hmf, hbf, Bool.false_eq_true, if_false]
      rw [hf]
      exact ⟨iff_of_false (fun h => hM1 h.symm) (fun hx => hm hx),
        iff_of_false (fun h => hB1 h.symm) (fun h => absurd h.2 hb),
        iff_of_true rfl ⟨hmf, hbf⟩, hmem⟩

/-- Witness for `money_format_by_context`: the context
`"Revenue: $1,250 million"` carries the `million` scale, so its capture
`1,250` is formatted `$1,250M`. -/
theorem money_format_by_context_witness :
    formatValue (strL "Revenue: $1,250 million") (strL "1,250") = strL "$1,250M" :=
  ((money_format_by_context (strL "Revenue: $1,250 million") (strL "1,250")
    (strL "") []).1).mpr (by decide)

/-- C4 counterexample: in `"Net sales 5 and revenue 7"` the earliest match
in the text is the `net sales` one (value `$5`), but the value kept for the
`revenue` metric is `$7` — the first match of the first keyword in
declaration order, not the earliest match in the text. -/
theorem metric_first_match_counterexample :
    extract_financial_metrics (strL "Net sales 5 and revenue 7") =
      [(strL "revenue", strL "$7")] ∧
    find_monetary_values (strL "Net sales 5 and revenue 7")
      [strL "revenue", strL "net sales", strL "total revenue"] =
      [strL "$7", strL "$5"] := by
  decide

/-- C4 amended: the value kept for a metric category is not the earliest
match in the text but the first match, in text order, of the earliest
keyword in the category's declaration order that has any match at all. -/
theorem kept_value_first_keyword (text kw : List Char) (pre post : List (List Char))
    (hpre : ∀ k ∈ pre, scanMoney k text = [])
    (hkw : scanMoney kw text ≠ []) :
    (find_monetary_values text (pre ++ kw :: post)).head? =
      ((scanMoney kw text).map (fun p => formatValue p.1 p.2)).head? := by
  simp only [find_monetary_values]
  rw [foldl_append_eq_flatMap
      (fun kw => (scanMoney kw text).map (fun p => formatValue p.1 p.2))
      (pre ++ kw :: post) [],
    List.nil_append, List.flatMap_append, List.flatMap_cons]
  have hpre0 : pre.flatMap
      (fun kw => (scanMoney kw text).map (fun p => formatValue p.1 p.2)) = [] := by
    rw [List.flatMap_eq_nil_iff]
    intro k hk
    rw [hpre k hk]
    rfl
  rw [hpre0, List.nil_append]
  cases hsc : scanMoney kw text with
  | nil => exact absurd hsc hkw
  | cons p ps => rw [List.map_cons, List.cons_append]; rfl

/-- Witness for `kept_value_first_keyword` on the net-income keyword family:
`net income` has no match in `"Net profit 8"`, so the kept value is the
first match of the next keyword `net profit`. -/
theorem kept_value_first_keyword_witness :
    (find_monetary_values (strL "Net profit 8")
        ([strL "net income"] ++ strL "net profit" :: [strL "net earnings"])).head? =
      ((scanMoney (strL "net profit") (strL "Net profit 8")).map
        (fun p => formatValue p.1 p.2)).head? :=
  kept_value_first_keyword (strL "Net profit 8") (strL "net profit")
    [strL "net income"] [strL "net earnings"] (by decide) (by decide)

/-- C6: the recommendation is a pure function of the case-insensitive
substring counts of the two fixed indicator sets: POSITIVE exactly when the
positive count exceeds 1.2 times the negative count, CAUTIOUS exactly when
that fails and the negative count exceeds 1.2 times the positive count,
NEUTRAL otherwise; equal counts give NEUTRAL, and 6 positives against 1
negative give POSITIVE. -/
theorem recommendation_thresholds (text : List Char) :
    (generate_recommendation text = POSITIVE_REC ↔
       (positiveCount text : ℚ) > (negativeCount text : ℚ) * 1.2) ∧
    (generate_recommendation text = CAUTIOUS_REC ↔
       ¬((positiveCount text : ℚ) > (negativeCount text : ℚ) * 1.2) ∧
       (negativeCount text : ℚ) > (positiveCount text : ℚ) * 1.2) ∧
    (generate_recommendation text = NEUTRAL_REC ↔
       ¬((positiveCount text : ℚ) > (negativeCount text : ℚ) * 1.2) ∧
       ¬((negativeCount text : ℚ) > (positiveCount text : ℚ) * 1.2)) ∧
    (positiveCount text = negativeCount text →
       generate_recommendation text = NEUTRAL_REC) ∧
    generate_recommendation
      (strL "growth growth growth growth growth growth declined") = POSITIVE_REC := by
  have hbridge : ∀ a b : Nat, ((a : ℚ) > (b : ℚ) * 1.2 ↔ 5 * a > 6 * b) := by
    intro a b
    have h12 : (1.2 : ℚ) = 6 / 5 := by norm_num
    rw [gt_iff_lt, gt_iff_lt, ← Nat.cast_lt (α := ℚ), h12]
    push_cast
    constructor <;> intro h <;> nlinarith
  have hb1 := hbridge (positiveCount text) (negativeCount text)
  have hb2 := hbridge (negativeCount text) (positiveCount text)
  by_cases h1 : 5 * positiveCount text > 6 * negativeCount text
  · have hg : generate_recommendation text = POSITIVE_REC := by
      simp only [generate_recommendation, if_pos h1]
    rw [hg]
    exact ⟨iff_of_true rfl (hb1.mpr h1),
      iff_of_false (by decide) (fun h => h.1 (hb1.mpr h1)),
      iff_of_false (by decide) (fun h => h.1 (hb1.mpr h1)),
      fun heq => absurd h1 (by omega),
      by decide⟩
  · by_cases h2 : 5 * negativeCount text > 6 * positiveCount text
    · have hg : generate_recommendation text = CAUTIOUS_REC := by
        simp only [generate_recommendation, if_neg h1, if_pos h2]
      rw [hg]
      exact ⟨iff_of_false (by decide) (fun hq => h1 (hb1.mp hq)),
        iff_of_true rfl ⟨fun hq => h1 (hb1.mp hq), hb2.mpr h2⟩,
        iff_of_false (by decide) (fun h => h.2 (hb2.mpr h2)),
        fun heq => absurd h2 (by omega),
        by decide⟩
    · have hg : generate_recommendation text = NEUTRAL_REC := by
        simp only [generate_recommendation, if_neg h1, if_neg h2]
      rw [hg]
      exact ⟨iff_of_false (by decide) (fun hq => h1 (hb1.mp hq)),
        iff_of_false (by decide) (fun h => h2 (hb2.mp h.2)),
        iff_of_true rfl ⟨fun hq => h1 (hb1.mp hq), fun hq => h2 (hb2.mp hq)⟩,
        fun _ => rfl,
        by decide⟩

/-- Witness for `recommendation_thresholds`: the empty text has equal (zero)
counts and is classified NEUTRAL. -/
theorem recommendation_thresholds_witness :
    generate_recommendation (strL "") = NEUTRAL_REC :=
  (recommendation_thresholds (strL "")).2.2.2.1 (by decide)

/-- C9 counterexample: for the empty input the company name is the literal
`"Not identified"` (capital `N`), not `"not identified"` as the claim
states. -/
theorem company_name_capitalization :
    (extract_document_info (strL "")).company_name ≠ strL "not identified" ∧
    (extract_document_info (strL "")).company_name = strL "Not identified" := by
  decide

/-- C9 amended: the document type is assigned by case-insensitive substring
search in fixed priority order — annual report/10-k, else quarterly/10-q,
else earnings, else the generic type — the first matching rule winning even
when later markers also occur; the empty input yields the generic type with
company name `"Not identified"` (capital `N`) and reporting period
`"Not specified"`. -/
theorem document_type_priority (text : List Char) :
    ((extract_document_info text).document_type = strL "Annual Report" ↔
       (containsSub (strL "annual report") (lower text)
         || containsSub (strL "10-k") (lower text)) = true) ∧
    ((extract_document_info text).document_type = strL "Quarterly Report" ↔
       (containsSub (strL "annual report") (lower text)
         || containsSub (strL "10-k") (lower text)) = false ∧
       (containsSub (strL "quarterly") (lower text)
         || containsSub (strL "10-q") (lower text)) = true) ∧
    ((extract_document_info text).document_type = strL "Earnings Report" ↔
       (containsSub (strL "annual report") (lower text)
         || containsSub (strL "10-k") (lower text)) = false ∧
       (containsSub (strL "quarterly") (lower text)
         || containsSub (strL "10-q") (lower text)) = false ∧
       containsSub (strL "earnings") (lower text) = true) ∧
    ((extract_document_info text).document_type = strL "Financial Document" ↔
       (containsSub (strL "annual report") (lower text)
         || containsSub (strL "10-k") (lower text)) = false ∧
       (containsSub (strL "quarterly") (lower text)
         || containsSub (strL "10-q") (lower text)) = false ∧
       containsSub (strL "earnings") (lower text) = false) ∧
    extract_document_info (strL "") =
      ⟨strL "Financial Document", strL "Not identified", strL "Not specified"⟩ ∧
    (extract_document_info (strL "quarterly earnings update")).document_type =
      strL "Quarterly Report" := by
  have hdt : (extract_document_info text).document_type =
      (if containsSub (strL "annual report") (lower text)
            || containsSub (strL "10-k") (lower text) then strL "Annual Report"
       else if containsSub (strL "quarterly") (lower text)
            || containsSub (strL "10-q") (lower text) then strL "Quarterly Report"
       else if containsSub (strL "earnings") (lower text) then strL "Earnings Report"
       else strL "Financial Document") := rfl
  rw [hdt]
  by_cases h1 : (containsSub (strL "annual report") (lower text)
      || containsSub (strL "10-k") (lower text)) = true
  · rw [if_pos h1]
    exact ⟨iff_of_true rfl h1,
      iff_of_false (by decide) (fun h => absurd h1 (by simp [h.1])),
      iff_of_false (by decide) (fun h => absurd h1 (by simp [h.1])),
      iff_of_false (by decide) (fun h => absurd h1 (by simp [h.1])),
      by decide, by decide⟩
  · have h1f : (containsSub (strL "annual report") (lower text)
        || containsSub (strL "10-k") (lower text)) = false := by
      revert h1
      cases containsSub (strL "annual report") (lower text)
        || containsSub (strL "10-k") (lower text) <;> simp
    rw [if_neg h1]
    by_cases h2 : (containsSub (strL "quarterly") (lower text)
        || containsSub (strL "10-q") (lower text)) = true
    · rw [if_pos h2]
      exact ⟨iff_of_false (by decide) (fun hb => h1 hb),
        iff_of_true rfl ⟨h1f, h2⟩,
        iff_of_false (by decide) (fun h => absurd h2 (by simp [h.2.1])),
        iff_of_false (by decide) (fun h => absurd h2 (by simp [h.2.1])),
        by decide, by decide⟩
    · have h2f : (containsSub (strL "quarterly") (lower text)
          || containsSub (strL "10-q") (lower text)) = false := by
        revert h2
        cases containsSub (strL "quarterly") (lower text)
          || containsSub (strL "10-q") (lower text) <;> simp
      rw [if_neg h2]
      by_cases h3 : containsSub (strL "earnings") (lower text) = true
      · rw [if_pos h3]
        exact ⟨iff_of_false (by decide) (fun hb => h1 hb),
          iff_of_false (by decide) (fun h => h2 h.2),
          iff_of_true rfl ⟨h1f, h2f, h3⟩,
          iff_of_false (by decide) (fun h => absurd h3 (by simp [h.2.2])),
          by decide, by decide⟩
      · have h3f : containsSub (strL "earnings") (lower text) = false := by
          revert h3
          cases containsSub (strL "earnings") (lower text) <;> simp
        rw [if_neg h3]
        exact ⟨iff_of_false (by decide) (fun hb => h1 hb),
          iff_of_false (by decide) (fun h => h2 h.2),
          iff_of_false (by decide) (fun h => h3 h.2.2),
          iff_of_true rfl ⟨h1f, h2f, h3f⟩,
          by decide, by decide⟩

/-- Witness for `document_type_priority`: a text containing `annual report`
is classified as an Annual Report. -/
theorem document_type_priority_witness :
    (extract_document_info (strL "annual report 2023")).document_type =
      strL "Annual Report" :=
  ((document_type_priority (strL "annual report 2023")).1).mpr (by decide)

end Wik
